import Mathlib

/-!
Verification development for the willi SMTP proxy.

Strings from the Go source are modelled as lists of characters (`Str`).
The recipient→upstream resolution engine (`removeSuffix`, `lookupRecipient`,
`getServer` from proxy.go), the error translation layer
(`wrapAsSMTPError` from proxy.go) and the per-transaction upstream
establishment sequence (`ProxySession.Rcpt` from proxy.go) are embedded as
executable Lean functions.  The upstream network is modelled as a function
from server addresses to upstream behaviours; each behaviour records the
advertised extensions and the reply (success or error) the upstream gives
to each command the proxy may issue.
-/

/-- Go strings, modelled as lists of characters. -/
abbrev Str := List Char

/-- Accumulator-based splitting of a character list at every occurrence of
the separator character, mirroring Go's strings.Split with a one-character
separator.  The accumulator holds the current field in reverse. -/
def splitAux (c : Char) : List Char → List Char → List (List Char)
  | [], acc => [acc.reverse]
  | x :: xs, acc =>
      if x = c then acc.reverse :: splitAux c xs []
      else splitAux c xs (x :: acc)

/-- Go's strings.Split(s, sep) for a one-character separator sep. -/
def splitOnChar (c : Char) (l : List Char) : List (List Char) :=
  splitAux c l []

/-- Go error values as they occur in proxy.go and mapping.go: SMTP errors
(go-smtp's SMTPError with reply code, optional enhanced code and message),
the ErrNoServerFound sentinel from mapping.go, errors wrapped with
fmt.Errorf's %w verb (which produces a non-SMTP error value), and any other
plain error. -/
inductive GoErr where
  | smtpErr (code : Nat) (enhanced : Option (Nat × Nat × Nat)) (message : Str)
  | noServerFound
  | wrapped (inner : GoErr)
  | other (message : Str)
deriving DecidableEq

/-- ErrRelayAccessDenied from proxy.go: 554 5.7.1 Relay access denied. -/
def ErrRelayAccessDenied : GoErr :=
  GoErr.smtpErr 554 (some (5, 7, 1)) ("Relay access denied".toList)

/-- ErrInternal from proxy.go: 450 (no enhanced code) with the generic
message. -/
def ErrInternal : GoErr :=
  GoErr.smtpErr 450 none ("Internal server error. Please try again later.".toList)

/-- The type switch `case *smtp.SMTPError` used in proxy.go. -/
def isSMTPError : GoErr → Bool
  | GoErr.smtpErr _ _ _ => true
  | _ => false

/-- LoggingSession.wrapAsSMTPError from proxy.go: nil stays nil, an SMTP
error is returned unchanged, anything else becomes ErrInternal. -/
def wrapAsSMTPError : Option GoErr → Option GoErr
  | none => none
  | some (GoErr.smtpErr c ec m) => some (GoErr.smtpErr c ec m)
  | some _ => some ErrInternal

/-- A Mapping (the interface in mapping.go): a lookup from a key to a
server string together with an optional error, mirroring Go's
(string, error) return shape.  All implementations in mapping.go return
("", ErrNoServerFound) on a miss and (server, nil) on a hit; an
operational failure (for example a SQL error) is any other error. -/
abbrev Mapping := Str → Str × Option GoErr

/-- The csvMapping.Get lookup from mapping.go: membership in an in-memory
table. -/
def csvGet (entries : List (Str × Str)) : Mapping := fun k =>
  match entries.lookup k with
  | some v => (v, none)
  | none => ([], some GoErr.noServerFound)

/-- The staticMapping.Get lookup from mapping.go: always returns the fixed
server. -/
def staticGet (server : Str) : Mapping := fun _ => (server, none)

/-- removeSuffix from proxy.go.  Note that the function receives the
configured recipient delimiter as its second argument but never uses it:
the split is on the literal character '+'. -/
def removeSuffix (recipient : Str) (recipientDelimiter : Str) : Str :=
  match splitOnChar '+' recipient with
  | [localPart, suffixAtDomain] =>
      match splitOnChar '@' suffixAtDomain with
      | [_, domain] => localPart ++ '@' :: domain
      | _ => recipient
  | _ => recipient

/-- The first key a mapping is asked for by ProxySession.lookupRecipient:
the recipient after the delimiter-stripping step. -/
def firstKey (delim : Str) (recipient : Str) : Str :=
  if delim = [] then recipient else removeSuffix recipient delim

/-- The list of keys ProxySession.lookupRecipient can ask a mapping for:
the (possibly stripped) recipient, followed by the bare domain when the
stripped recipient splits at '@' into exactly two parts. -/
def triedKeys (delim : Str) (recipient : Str) : List Str :=
  let r := firstKey delim recipient
  match splitOnChar '@' r with
  | [_, domain] => [r, domain]
  | _ => [r]

/-- The domain fallback inside ProxySession.lookupRecipient: when the
first lookup reported ErrNoServerFound and the stripped recipient splits
at '@' into exactly two fields, look the bare domain up instead. -/
def domainFallback (m : Mapping) (recipient : Str) (p : Str × Option GoErr) :
    Str × Option GoErr :=
  if p.2 = some GoErr.noServerFound then
    match splitOnChar '@' recipient with
    | [_, domain] => m domain
    | _ => p
  else p

/-- The tail of ProxySession.lookupRecipient: wrap an operational error
(any error other than ErrNoServerFound) with fmt.Errorf, and append ":25"
when the server string contains no colon. -/
def finishLookup (p : Str × Option GoErr) : Str × Option GoErr :=
  match p with
  | (server, some e) =>
      if e = GoErr.noServerFound then
        if server.contains ':' then (server, some e)
        else (server ++ (':' :: "25".toList), some e)
      else ([], some (GoErr.wrapped e))
  | (server, none) =>
      if server.contains ':' then (server, none)
      else (server ++ (':' :: "25".toList), none)

/-- ProxySession.lookupRecipient from proxy.go: strip the recipient when a
delimiter is configured (firstKey), look it up, fall back to the bare
domain on a miss, wrap operational errors, and append ":25" when the
resulting server string has no colon. -/
def lookupRecipient (delim : Str) (m : Mapping) (recipient0 : Str) : Str × Option GoErr :=
  let recipient := firstKey delim recipient0
  finishLookup (domainFallback m recipient (m recipient))

/-- ProxySession.getServer from proxy.go: walk the mapping chain in order,
skipping mappings that report ErrNoServerFound and returning the first
other result (hit or operational error) unchanged. -/
def getServer (delim : Str) (ms : List Mapping) (recipient : Str) : Str × Option GoErr :=
  match ms with
  | [] => ([], some GoErr.noServerFound)
  | m :: rest =>
      let p := lookupRecipient delim m recipient
      if p.2 = some GoErr.noServerFound then getServer delim rest recipient else p

/-- Behaviour of one upstream SMTP server, as observed by the proxy's
go-smtp client: which extensions the EHLO response advertises, and the
reply (none for success, some e for an error reply or transport failure)
the upstream gives to each command the proxy may issue. -/
structure UpstreamBehavior where
  ehloErr : Option GoErr
  advXclient : Bool
  xclientErr : Option GoErr
  advStarttls : Bool
  starttlsErr : Option GoErr
  mailErr : Option GoErr
  rcptErr : Str → Option GoErr
  dataErr : Option GoErr
  quitErr : Option GoErr

/-- A connected upstream smtp.Client.  The id models the identity of the
Go client object allocated by smtp.Dial, so that distinct dials yield
distinct connections. -/
structure UpstreamConn where
  id : Nat
  behavior : UpstreamBehavior

/-- The network: dialing a server address either fails or yields the
behaviour of the upstream listening there. -/
abbrev Network := Str → Except GoErr UpstreamBehavior

/-- The part of Go's tls.Config that proxy.go touches. -/
structure TlsConfig where
  insecureSkipVerify : Bool
deriving DecidableEq

/-- The tls.Config value constructed in ProxySession.Rcpt for the upstream
STARTTLS handshake: the zero config (the InsecureSkipVerify assignment is
commented out in the source), so certificate verification is enabled. -/
def upstreamTlsConfig : TlsConfig := { insecureSkipVerify := false }

/-- The condition guarding the STARTTLS block in ProxySession.Rcpt:
the upstream advertises STARTTLS, or the client-side connection is not
TLS. -/
def codeStarttlsCondition (advertised : Bool) (clientTls : Bool) : Bool :=
  advertised || !clientTls

/-- The commands the proxy issues on the upstream connection, in order. -/
inductive Step where
  | dial (server : Str)
  | ehlo (domain : Str)
  | xclientCmd (addr : Str) (helo : Str)
  | starttls (cfg : TlsConfig)
  | mailFrom (sender : Str) (opts : Nat)
  | rcptTo (toA : Str)
deriving DecidableEq

/-- ProxyMessage from proxy.go: the state of one message transaction.
Mail options are opaque to the proxy and modelled as a token. -/
structure ProxyMessage where
  sender : Str
  rcpts : List Str
  server : Str
  client : Option UpstreamConn
  tls : Bool
  opts : Nat

/-- buildProxyMessage from proxy.go. -/
def buildProxyMessage (sender : Str) (opts : Nat) : ProxyMessage :=
  { sender := sender, rcpts := [], server := [], client := none, tls := false, opts := opts }

/-- buildZeroProxyMessage from proxy.go. -/
def buildZeroProxyMessage : ProxyMessage :=
  buildProxyMessage [] 0

/-- ProxySession from proxy.go.  The helo field is the proxy's configured
greeting domain (ProxyBackend.domain, passed in AnonymousLogin); the
clientHelo field is what the client said in its own HELO/EHLO.  The
mapping chain and the recipient delimiter, also session fields in the
source, are passed to the operations as explicit arguments. -/
structure ProxySession where
  clientHelo : Str
  clientAddrStr : Str
  clientIsIPv6 : Bool
  clientTls : Bool
  helo : Str
  msg : ProxyMessage

/-- The ADDR value the xclient helper in proxy.go sends: the client IP,
with an IPV6: marker for IPv6 addresses. -/
def xclientAddr (s : ProxySession) : Str :=
  if s.clientIsIPv6 then "IPV6:".toList ++ s.clientAddrStr else s.clientAddrStr

/-- ProxySession.Mail from proxy.go: start a fresh message transaction. -/
def ProxySession.Mail (s : ProxySession) (sender : Str) (opts : Nat) : ProxySession :=
  { s with msg := buildProxyMessage sender opts }

/-- ProxySession.Rcpt from proxy.go.  Returns the session state after the
callback, the error returned to the caller (none on success), and the
list of commands issued to the upstream during this callback.  On the
first RCPT of a transaction (no upstream client bound) it resolves the
recipient and establishes the upstream connection: dial, EHLO with the
proxy's configured domain, XCLIENT when advertised, the STARTTLS block,
MAIL FROM with the saved envelope, then the RCPT; on later RCPTs it only
forwards the RCPT on the bound connection.  nextId is the identity given
to a newly dialed connection. -/
def ProxySession.Rcpt (net : Network) (delim : Str) (ms : List Mapping) (nextId : Nat)
    (s0 : ProxySession) (toA : Str) : ProxySession × Option GoErr × List Step :=
  let s := { s0 with msg := { s0.msg with rcpts := s0.msg.rcpts ++ [toA] } }
  match s.msg.client with
  | some conn => (s, conn.behavior.rcptErr toA, [Step.rcptTo toA])
  | none =>
    match getServer delim ms toA with
    | (_, some e) =>
        if e = GoErr.noServerFound then (s, some ErrRelayAccessDenied, [])
        else (s, some e, [])
    | (server, none) =>
      let s := { s with msg := { s.msg with server := server } }
      match net server with
      | Except.error e => (s, some e, [Step.dial server])
      | Except.ok b =>
        let s := { s with msg := { s.msg with client := some ⟨nextId, b⟩ } }
        let finishMail := fun (s1 : ProxySession) (tr : List Step) =>
          let trM := tr ++ [Step.mailFrom s1.msg.sender s1.msg.opts]
          match b.mailErr with
          | some e => (s1, some e, trM)
          | none => (s1, b.rcptErr toA, trM ++ [Step.rcptTo toA])
        let afterXclient := fun (tr : List Step) =>
          if codeStarttlsCondition b.advStarttls s.clientTls then
            let trS := tr ++ [Step.starttls upstreamTlsConfig]
            match b.starttlsErr with
            | some e => (s, some e, trS)
            | none => finishMail { s with msg := { s.msg with tls := true } } trS
          else finishMail s tr
        match b.ehloErr with
        | some e => (s, some e, [Step.dial server, Step.ehlo s.helo])
        | none =>
          if b.advXclient then
            let trX := [Step.dial server, Step.ehlo s.helo,
              Step.xclientCmd (xclientAddr s) s.clientHelo]
            match b.xclientErr with
            | some e => (s, some e, trX)
            | none => afterXclient trX
          else afterXclient [Step.dial server, Step.ehlo s.helo]

/-- ProxySession.Data from proxy.go: a hard internal error when no
upstream client is bound, otherwise the upstream's verdict on the
streamed message body. -/
def ProxySession.Data (s : ProxySession) : Option GoErr :=
  match s.msg.client with
  | none => some (GoErr.other ("SMTP client is unexpectedly nil".toList))
  | some conn => conn.behavior.dataErr

/-- ProxySession.Reset from proxy.go: nothing to do when no upstream
client is bound; otherwise the upstream connection is terminated (QUIT,
falling back to a hard close on error) and the message state is zeroed. -/
def ProxySession.Reset (s : ProxySession) : ProxySession :=
  match s.msg.client with
  | none => s
  | some _ => { s with msg := buildZeroProxyMessage }

/-- ProxySession.Logout from proxy.go: QUIT (and close) the upstream
connection when one is bound, returning QUIT's error. -/
def ProxySession.Logout (s : ProxySession) : Option GoErr :=
  match s.msg.client with
  | none => none
  | some conn => conn.behavior.quitErr

/-- LoggingSession.Mail from proxy.go: delegate, then wrap the error.
ProxySession.Mail never fails, so the client always sees success. -/
def LoggingSession.Mail (s : ProxySession) (sender : Str) (opts : Nat) :
    ProxySession × Option GoErr :=
  (ProxySession.Mail s sender opts, wrapAsSMTPError none)

/-- LoggingSession.Rcpt from proxy.go: delegate, then wrap the error. -/
def LoggingSession.Rcpt (net : Network) (delim : Str) (ms : List Mapping) (nextId : Nat)
    (s : ProxySession) (toA : Str) : ProxySession × Option GoErr × List Step :=
  let r := ProxySession.Rcpt net delim ms nextId s toA
  (r.1, wrapAsSMTPError r.2.1, r.2.2)

/-- LoggingSession.Data from proxy.go: delegate, then wrap the error. -/
def LoggingSession.Data (s : ProxySession) : Option GoErr :=
  wrapAsSMTPError (ProxySession.Data s)

/-- LoggingSession.Logout from proxy.go: delegate, then wrap the error. -/
def LoggingSession.Logout (s : ProxySession) : Option GoErr :=
  wrapAsSMTPError (ProxySession.Logout s)

/-- The Upstream record from mapping.go: a server string and the
tls_verify flag parsed from the mapping source. -/
structure Upstream where
  server : Str
  tlsVerify : Bool
deriving DecidableEq

/-- Modelled from the spec: the STARTTLS decision as the spec states it,
issue STARTTLS to the upstream exactly when the upstream advertises
STARTTLS and the client-side connection is already TLS. -/
def specStarttlsDecision (advertised : Bool) (clientTls : Bool) : Bool :=
  advertised && clientTls

/-- Modelled from the spec: the TLS configuration the spec prescribes for
the upstream handshake, with certificate verification controlled by the
Upstream's tls_verify flag. -/
def specTlsConfigOfUpstream (u : Upstream) : TlsConfig :=
  { insecureSkipVerify := !u.tlsVerify }

/-- The SMTP commands a client can send within an established session. -/
inductive ClientCmd where
  | mailCmd (sender : Str) (opts : Nat)
  | rcptCmd (toA : Str)
  | dataCmd
  | rsetCmd
deriving DecidableEq

/-- One client session together with the bookkeeping needed to state the
connection invariants: whether a transaction is open (the command
sequencing enforced by the go-smtp server library, modelled from the
spec's session state machine), the identity the next dialed connection
would get, the identities of the upstream connections currently open, and
the identities of every connection ever opened, in dial order. -/
structure SessionRun where
  sess : ProxySession
  txOpen : Bool
  nextId : Nat
  openIds : List Nat
  openedHistory : List Nat

/-- Close the bound upstream connection (QUIT, falling back to a hard
close: either way the connection ends closed) and run
ProxySession.Reset. -/
def doReset (st : SessionRun) : SessionRun :=
  let closed := match st.sess.msg.client with
    | some c => [c.id]
    | none => []
  { st with
      sess := ProxySession.Reset st.sess
      txOpen := false
      openIds := st.openIds.filter (fun i => !(closed.contains i)) }

/-- Modelled from the spec: the command sequencing of the go-smtp server
library (out of scope of src, spec section 4.3), driving the session
callbacks of proxy.go.  MAIL is accepted only when no transaction is open;
RCPT and DATA are accepted only inside a transaction; Reset runs after
each DATA and on RSET.  A rejected out-of-order command does not invoke
any session callback. -/
def stepCmd (net : Network) (delim : Str) (ms : List Mapping)
    (st : SessionRun) : ClientCmd → SessionRun
  | ClientCmd.mailCmd sender opts =>
      if st.txOpen then st
      else { st with sess := ProxySession.Mail st.sess sender opts, txOpen := true }
  | ClientCmd.rcptCmd toA =>
      if st.txOpen then
        let before := st.sess.msg.client
        let r := ProxySession.Rcpt net delim ms st.nextId st.sess toA
        let opened := before.isNone && r.1.msg.client.isSome
        { st with
            sess := r.1
            nextId := if opened then st.nextId + 1 else st.nextId
            openIds := if opened then st.openIds ++ [st.nextId] else st.openIds
            openedHistory := if opened then st.openedHistory ++ [st.nextId]
              else st.openedHistory }
      else st
  | ClientCmd.dataCmd =>
      if st.txOpen then doReset st else st
  | ClientCmd.rsetCmd =>
      doReset st

/-- Run a list of client commands from a given session state. -/
def runSession (net : Network) (delim : Str) (ms : List Mapping)
    (st : SessionRun) : List ClientCmd → SessionRun
  | [] => st
  | c :: cs => runSession net delim ms (stepCmd net delim ms st c) cs

/-- A freshly accepted client session (AnonymousLogin in proxy.go): zero
message transaction, no transaction open, no upstream connection. -/
def initSessionRun (clientHelo clientAddrStr : Str) (clientIsIPv6 clientTls : Bool)
    (helo : Str) : SessionRun :=
  { sess :=
      { clientHelo := clientHelo
        clientAddrStr := clientAddrStr
        clientIsIPv6 := clientIsIPv6
        clientTls := clientTls
        helo := helo
        msg := buildZeroProxyMessage }
    txOpen := false
    nextId := 0
    openIds := []
    openedHistory := [] }

/-- The inductive invariant of a running session: the list of open
upstream connections is exactly the one bound in the current message (so
at most one connection is open at any instant); when no transaction is
open no upstream connection is bound; connection identities are bounded by
the dial counter; and the identities of past connections grow strictly, so
every dial yields a fresh connection. -/
def SessionInv (st : SessionRun) : Prop :=
  (match st.sess.msg.client with
   | some c => st.openIds = [c.id] ∧ c.id < st.nextId
   | none => st.openIds = []) ∧
  (st.txOpen = false → st.sess.msg.client = none) ∧
  st.openedHistory.Pairwise (· < ·) ∧
  (∀ i ∈ st.openedHistory, i < st.nextId)

/-- A concrete client session used to evaluate the model on explicit
inputs. -/
def mkSession (clientTls : Bool) : ProxySession :=
  { clientHelo := "client.example".toList
    clientAddrStr := "192.0.2.1".toList
    clientIsIPv6 := false
    clientTls := clientTls
    helo := "proxy.example".toList
    msg := buildZeroProxyMessage }

/-- An upstream that advertises nothing and accepts every command. -/
def okBehavior : UpstreamBehavior :=
  { ehloErr := none
    advXclient := false
    xclientErr := none
    advStarttls := false
    starttlsErr := none
    mailErr := none
    rcptErr := fun _ => none
    dataErr := none
    quitErr := none }

/-- An upstream that does not advertise STARTTLS and rejects a STARTTLS
attempt, as a plain-only SMTP server does. -/
def noTlsUpstream : UpstreamBehavior :=
  { okBehavior with starttlsErr := some (GoErr.other ("STARTTLS not supported".toList)) }

/-- An upstream advertising both XCLIENT and STARTTLS, accepting both. -/
def bothAdvBehavior : UpstreamBehavior :=
  { okBehavior with advXclient := true, advStarttls := true }

/-- An upstream advertising STARTTLS and accepting it. -/
def tlsUpstream : UpstreamBehavior :=
  { okBehavior with advStarttls := true }

/-- A mapping whose lookup always fails with an operational (non
not-found) error, as a SQL mapping with an unreachable database does. -/
def opErrMapping : Mapping :=
  fun _ => ([], some (GoErr.other ("db down".toList)))

/-- A csv mapping holding exactly the full tagged recipient as key. -/
def fullKeyMapping : Mapping :=
  csvGet [("foo+tag@domain.com".toList, "mx1.int:25".toList)]

/-- A session already bound to an upstream connection, as it is after the
first successful RCPT of a transaction. -/
def sessBound : ProxySession :=
  { mkSession false with
      msg := { buildZeroProxyMessage with client := some ⟨7, okBehavior⟩ } }

/-- Splitting a list yields one more field than there are separator
occurrences. -/
lemma splitAux_length (c : Char) (xs : List Char) :
    ∀ acc, (splitAux c xs acc).length = List.count c xs + 1 := by
  induction xs with
  | nil => intro acc; simp [splitAux]
  | cons x xs ih =>
      intro acc
      by_cases h : x = c
      · simp [splitAux, h, ih, List.count_cons]
      · simp [splitAux, h, ih, List.count_cons]

/-- Splitting a separator-free list yields a single field. -/
lemma splitAux_count_zero (c : Char) (xs : List Char) (h : List.count c xs = 0) :
    ∀ acc, splitAux c xs acc = [acc.reverse ++ xs] := by
  induction xs with
  | nil => intro acc; simp [splitAux]
  | cons x xs ih =>
      intro acc
      have hx : ¬ x = c := by
        intro he
        simp [List.count_cons, he] at h
      have hcount : List.count c xs = 0 := by
        simpa [List.count_cons, hx] using h
      simp [splitAux, hx, ih hcount]

/-- Splitting a list with exactly one separator occurrence yields the part
before the separator and the part after it. -/
lemma splitAux_count_one (c : Char) (xs : List Char) (h : List.count c xs = 1) :
    ∀ acc, splitAux c xs acc =
      [acc.reverse ++ xs.takeWhile (· != c), (xs.dropWhile (· != c)).tail] := by
  induction xs with
  | nil => simp at h
  | cons x xs ih =>
      intro acc
      by_cases hx : x = c
      · have hcount : List.count c xs = 0 := by
          simpa [List.count_cons, hx] using h
        have hx2 : (x != c) = false := by simp [hx]
        simp [splitAux, hx, splitAux_count_zero c xs hcount,
          List.takeWhile_cons, List.dropWhile_cons, hx2]
      · have hcount : List.count c xs = 1 := by
          simpa [List.count_cons, hx] using h
        have hx2 : (x != c) = true := by simp [hx]
        simp [splitAux, hx, ih hcount, List.takeWhile_cons, List.dropWhile_cons, hx2]

/-- The two-field form of splitOnChar at exactly one separator
occurrence. -/
lemma splitOnChar_count_one (c : Char) (xs : List Char) (h : List.count c xs = 1) :
    splitOnChar c xs = [xs.takeWhile (· != c), (xs.dropWhile (· != c)).tail] := by
  simpa [splitOnChar] using splitAux_count_one c xs h []

/-- Field count of splitOnChar. -/
lemma splitOnChar_length (c : Char) (xs : List Char) :
    (splitOnChar c xs).length = List.count c xs + 1 :=
  splitAux_length c xs []

/-- C10: for every recipient string and every configured
recipient_delimiter value, the tag-stripping step (removeSuffix) splits on
the literal character '+' regardless of which delimiter was configured: it
returns local@domain (local is the text before the '+', domain the text
after the '@' of the suffix) exactly when the recipient contains exactly
one '+' and the text after that '+' contains exactly one '@'; in every
other case it returns the recipient unchanged.  The delimiter argument
does not occur on the right-hand side, so the result is independent of
it; the theorem in particular covers every non-empty delimiter. -/
theorem C10_removeSuffix_splits_on_literal_plus (r delim : Str) :
    removeSuffix r delim =
      if List.count '+' r = 1 ∧
          List.count '@' ((r.dropWhile (· != '+')).tail) = 1 then
        r.takeWhile (· != '+') ++ '@' ::
          ((r.dropWhile (· != '+')).tail.dropWhile (· != '@')).tail
      else r := by
  by_cases h1 : List.count '+' r = 1
  · by_cases h2 : List.count '@' ((r.dropWhile (· != '+')).tail) = 1
    · simp only [removeSuffix, splitOnChar_count_one '+' r h1,
        splitOnChar_count_one '@' _ h2, h1, h2, and_self, if_true]
    · have hlen := splitOnChar_length '@' ((r.dropWhile (· != '+')).tail)
      simp only [removeSuffix, splitOnChar_count_one '+' r h1]
      cases hsp : splitOnChar '@' ((r.dropWhile (· != '+')).tail) with
      | nil => simp [h1, h2]
      | cons a rest =>
          cases rest with
          | nil => simp [h1, h2]
          | cons b rest2 =>
              cases rest2 with
              | nil =>
                  rw [hsp] at hlen
                  simp only [List.length_cons, List.length_nil] at hlen
                  omega
              | cons d rest3 => simp [h1, h2]
  · have hlen := splitOnChar_length '+' r
    simp only [removeSuffix]
    cases hsp : splitOnChar '+' r with
    | nil => simp [h1]
    | cons a rest =>
        cases rest with
        | nil => simp [h1]
        | cons b rest2 =>
            cases rest2 with
            | nil =>
                rw [hsp] at hlen
                simp only [List.length_cons, List.length_nil] at hlen
                omega
            | cons d rest3 => simp [h1]

/-- A list with an explicit colon in its tail contains a colon. -/
lemma contains_append_cons (l t : Str) (c : Char) : (l ++ c :: t).contains c = true := by
  simp

/-- The stripped recipient is always among the tried keys. -/
lemma firstKey_mem_triedKeys (delim r : Str) : firstKey delim r ∈ triedKeys delim r := by
  simp only [triedKeys]
  split <;> simp

/-- When the stripped recipient splits at '@' into two fields, the tried
keys are the stripped recipient followed by the domain field. -/
lemma triedKeys_eq_of_split (delim r : Str) (a d : Str)
    (hd : splitOnChar '@' (firstKey delim r) = [a, d]) :
    triedKeys delim r = [firstKey delim r, d] := by
  simp only [triedKeys]
  rw [hd]

/-- A successful finishLookup result contains a colon. -/
lemma finishLookup_ok_contains (p : Str × Option GoErr) (v : Str)
    (h : finishLookup p = (v, none)) : v.contains ':' = true := by
  unfold finishLookup at h
  split at h
  · split at h
    · split at h
      · exact absurd (congrArg Prod.snd h) (by simp)
      · exact absurd (congrArg Prod.snd h) (by simp)
    · exact absurd (congrArg Prod.snd h) (by simp)
  · split at h
    · have hv := congrArg Prod.fst h
      simp at hv
      subst hv
      assumption
    · have hv := congrArg Prod.fst h
      simp at hv
      subst hv
      simp

/-- A successful lookupRecipient result contains a colon. -/
lemma lookupRecipient_ok_contains (delim : Str) (m : Mapping) (r : Str) (v : Str)
    (h : lookupRecipient delim m r = (v, none)) : v.contains ':' = true :=
  finishLookup_ok_contains _ v h

/-- finishLookup preserves a not-found verdict. -/
lemma finishLookup_snd_notFound (p : Str × Option GoErr)
    (h : p.2 = some GoErr.noServerFound) :
    (finishLookup p).2 = some GoErr.noServerFound := by
  rcases p with ⟨s, e⟩
  simp only at h
  subst h
  by_cases hc : ':' ∈ s <;> simp [finishLookup, hc]

/-- A mapping hit on the stripped recipient ends the lookup with the
port-normalized server string. -/
lemma lookupRecipient_of_found (delim : Str) (m : Mapping) (r v : Str)
    (h : m (firstKey delim r) = (v, none)) :
    lookupRecipient delim m r =
      ((if v.contains ':' then v else v ++ (':' :: "25".toList)), none) := by
  show finishLookup (domainFallback m (firstKey delim r) (m (firstKey delim r))) = _
  rw [h]
  simp only [domainFallback]
  rw [if_neg (by simp)]
  simp only [finishLookup]
  split <;> rfl

/-- An operational error from the mapping on the stripped recipient is
wrapped and ends the lookup. -/
lemma lookupRecipient_of_opErr (delim : Str) (m : Mapping) (r sv : Str) (e : GoErr)
    (h : m (firstKey delim r) = (sv, some e)) (hne : e ≠ GoErr.noServerFound) :
    lookupRecipient delim m r = ([], some (GoErr.wrapped e)) := by
  show finishLookup (domainFallback m (firstKey delim r) (m (firstKey delim r))) = _
  rw [h]
  simp only [domainFallback]
  simp [finishLookup, hne]

/-- When the mapping reports not-found on every tried key, the lookup
reports not-found. -/
lemma lookupRecipient_notFound (delim : Str) (m : Mapping) (r : Str)
    (h : ∀ k ∈ triedKeys delim r, (m k).2 = some GoErr.noServerFound) :
    (lookupRecipient delim m r).2 = some GoErr.noServerFound := by
  have h1 := h _ (firstKey_mem_triedKeys delim r)
  show (finishLookup (domainFallback m (firstKey delim r) (m (firstKey delim r)))).2 = _
  apply finishLookup_snd_notFound
  simp only [domainFallback, if_pos h1]
  cases hsp : splitOnChar '@' (firstKey delim r) with
  | nil => simpa using h1
  | cons a rest =>
      cases rest with
      | nil => simpa using h1
      | cons d rest2 =>
          cases rest2 with
          | nil =>
              have hmem : d ∈ triedKeys delim r := by
                rw [triedKeys_eq_of_split delim r a d hsp]
                simp
              simpa using h _ hmem
          | cons x rest3 => simpa using h1

/-- A successful getServer result contains a colon. -/
lemma getServer_ok_contains (delim : Str) (ms : List Mapping) (r v : Str)
    (h : getServer delim ms r = (v, none)) : v.contains ':' = true := by
  induction ms with
  | nil =>
      exact absurd (congrArg Prod.snd h) (by simp [getServer])
  | cons m rest ih =>
      rw [getServer] at h
      split at h
      · exact ih h
      · exact lookupRecipient_ok_contains delim m r v h

/-- When every mapping in the chain reports not-found on every tried key,
getServer reports not-found. -/
lemma getServer_all_notFound (delim : Str) (ms : List Mapping) (r : Str)
    (h : ∀ m ∈ ms, ∀ k ∈ triedKeys delim r, (m k).2 = some GoErr.noServerFound) :
    getServer delim ms r = ([], some GoErr.noServerFound) := by
  induction ms with
  | nil => rfl
  | cons m rest ih =>
      rw [getServer]
      rw [if_pos (lookupRecipient_notFound delim m r (h m (by simp)))]
      exact ih (fun m' hm' => h m' (by simp [hm']))

/-- getServer skips a chain segment whose mappings all report
not-found. -/
lemma getServer_skips_notFound (delim : Str) (pre : List Mapping) (ms : List Mapping)
    (r : Str)
    (hpre : ∀ m ∈ pre, (lookupRecipient delim m r).2 = some GoErr.noServerFound) :
    getServer delim (pre ++ ms) r = getServer delim ms r := by
  induction pre with
  | nil => rfl
  | cons m0 pre ih =>
      rw [List.cons_append, getServer]
      rw [if_pos (hpre m0 (by simp))]
      exact ih (fun m' hm' => hpre m' (by simp [hm']))

/-- getServer returns the first non-not-found lookup result unchanged,
independently of every mapping that comes after it in the chain. -/
lemma getServer_stops (delim : Str) (m : Mapping) (tail : List Mapping) (r : Str)
    (hm : (lookupRecipient delim m r).2 ≠ some GoErr.noServerFound) :
    getServer delim (m :: tail) r = lookupRecipient delim m r := by
  rw [getServer, if_neg hm]

/-- A RCPT on a session with a bound upstream client only appends the
recipient and forwards RCPT TO on the bound connection; the resolver, the
delimiter, the network and the dial counter do not enter the result. -/
lemma rcpt_bound (net : Network) (delim : Str) (ms : List Mapping) (n : Nat)
    (s0 : ProxySession) (toA : Str) (conn : UpstreamConn)
    (hclient : s0.msg.client = some conn) :
    ProxySession.Rcpt net delim ms n s0 toA =
      ({ s0 with msg := { s0.msg with rcpts := s0.msg.rcpts ++ [toA] } },
       conn.behavior.rcptErr toA, [Step.rcptTo toA]) := by
  simp only [ProxySession.Rcpt, hclient]

/-- A first RCPT whose resolution fails with not-found is rejected with
ErrRelayAccessDenied and issues nothing upstream. -/
lemma rcpt_notFound (net : Network) (delim : Str) (ms : List Mapping) (n : Nat)
    (s0 : ProxySession) (toA v : Str)
    (hclient : s0.msg.client = none)
    (hres : getServer delim ms toA = (v, some GoErr.noServerFound)) :
    ProxySession.Rcpt net delim ms n s0 toA =
      ({ s0 with msg := { s0.msg with rcpts := s0.msg.rcpts ++ [toA] } },
       some ErrRelayAccessDenied, []) := by
  simp only [ProxySession.Rcpt, hclient, hres]
  simp

/-- A first RCPT whose resolution fails with an operational error returns
that error unchanged and issues nothing upstream. -/
lemma rcpt_opErr (net : Network) (delim : Str) (ms : List Mapping) (n : Nat)
    (s0 : ProxySession) (toA v : Str) (e : GoErr)
    (hclient : s0.msg.client = none)
    (hres : getServer delim ms toA = (v, some e)) (hne : e ≠ GoErr.noServerFound) :
    ProxySession.Rcpt net delim ms n s0 toA =
      ({ s0 with msg := { s0.msg with rcpts := s0.msg.rcpts ++ [toA] } },
       some e, []) := by
  simp only [ProxySession.Rcpt, hclient, hres, hne, if_false]

/-- The full establishment sequence on the first RCPT of a transaction,
when every upstream step succeeds: the resolved server is recorded, the
connection is bound, and the commands issued are dial, EHLO with the
proxy's configured domain, XCLIENT when advertised, STARTTLS when the code
condition holds, MAIL FROM with the saved envelope, then RCPT TO. -/
lemma rcpt_establish (net : Network) (delim : Str) (ms : List Mapping) (n : Nat)
    (s0 : ProxySession) (toA srv : Str) (b : UpstreamBehavior)
    (hclient : s0.msg.client = none)
    (hres : getServer delim ms toA = (srv, none))
    (hnet : net srv = Except.ok b)
    (hehlo : b.ehloErr = none)
    (hxc : b.advXclient = true → b.xclientErr = none)
    (hst : codeStarttlsCondition b.advStarttls s0.clientTls = true → b.starttlsErr = none)
    (hmail : b.mailErr = none) :
    ProxySession.Rcpt net delim ms n s0 toA =
      ({ s0 with msg := { s0.msg with
            rcpts := s0.msg.rcpts ++ [toA],
            server := srv,
            client := some ⟨n, b⟩,
            tls := if codeStarttlsCondition b.advStarttls s0.clientTls then true
              else s0.msg.tls } },
       b.rcptErr toA,
       [Step.dial srv, Step.ehlo s0.helo] ++
         (if b.advXclient then [Step.xclientCmd (xclientAddr s0) s0.clientHelo] else []) ++
         (if codeStarttlsCondition b.advStarttls s0.clientTls then
            [Step.starttls upstreamTlsConfig] else []) ++
         [Step.mailFrom s0.msg.sender s0.msg.opts, Step.rcptTo toA]) := by
  simp only [ProxySession.Rcpt, hclient, hres, hnet, hehlo, hmail]
  by_cases hx : b.advXclient = true
  · simp only [hx, if_true, hxc hx]
    by_cases hs : codeStarttlsCondition b.advStarttls s0.clientTls = true
    · simp [hs, hst hs, xclientAddr]
    · simp only [Bool.not_eq_true] at hs
      simp [hs, xclientAddr]
  · simp only [Bool.not_eq_true] at hx
    simp only [hx, Bool.false_eq_true, if_false]
    by_cases hs : codeStarttlsCondition b.advStarttls s0.clientTls = true
    · simp [hs, hst hs, xclientAddr]
    · simp only [Bool.not_eq_true] at hs
      simp [hs, xclientAddr]

/-- Starting from an unbound transaction, a RCPT either leaves the
transaction unbound or binds the freshly dialed connection, whose identity
is the dial counter passed in. -/
lemma rcpt_client_of_none (net : Network) (delim : Str) (ms : List Mapping) (n : Nat)
    (s0 : ProxySession) (toA : Str) (hclient : s0.msg.client = none) :
    (ProxySession.Rcpt net delim ms n s0 toA).1.msg.client = none ∨
    ∃ b, (ProxySession.Rcpt net delim ms n s0 toA).1.msg.client = some ⟨n, b⟩ := by
  simp only [ProxySession.Rcpt, hclient]
  rcases hres : getServer delim ms toA with ⟨srv, e?⟩
  cases e? with
  | some e =>
      by_cases he : e = GoErr.noServerFound <;> simp [he]
  | none =>
      cases hnet : net srv with
      | error e => simp [hnet]
      | ok b =>
          simp only [hnet]
          right
          refine ⟨b, ?_⟩
          rcases b with ⟨ehloE, advX, xcE, advS, stE, mailE, rcptE, dataE, quitE⟩
          cases ehloE <;> cases xcE <;> cases stE <;> cases mailE <;> cases advX <;>
            by_cases hs : codeStarttlsCondition advS s0.clientTls = true <;>
              simp [hs]

/-- doReset preserves the session invariant: the bound connection (if any)
is closed and the message state is zeroed. -/
lemma doReset_inv (st : SessionRun) (h : SessionInv st) : SessionInv (doReset st) := by
  obtain ⟨hopen, htx, hpw, hbound⟩ := h
  rcases hcl : st.sess.msg.client with - | c
  · rw [hcl] at hopen
    have hids : st.openIds = [] := hopen
    refine ⟨?_, ?_, ?_, ?_⟩
    · simp [doReset, hcl, ProxySession.Reset, hids]
    · intro
      simp [doReset, hcl, ProxySession.Reset]
    · simpa [doReset] using hpw
    · simpa [doReset] using hbound
  · rw [hcl] at hopen
    obtain ⟨hids, hlt⟩ := hopen
    refine ⟨?_, ?_, ?_, ?_⟩
    · simp [doReset, hcl, ProxySession.Reset, hids, buildZeroProxyMessage, buildProxyMessage]
    · intro
      simp [doReset, hcl, ProxySession.Reset, buildZeroProxyMessage, buildProxyMessage]
    · simpa [doReset] using hpw
    · simpa [doReset] using hbound

/-- stepCmd preserves the session invariant. -/
lemma stepCmd_inv (net : Network) (delim : Str) (ms : List Mapping) (st : SessionRun)
    (c : ClientCmd) (h : SessionInv st) : SessionInv (stepCmd net delim ms st c) := by
  obtain ⟨hopen, htx, hpw, hbound⟩ := h
  cases c with
  | mailCmd sender opts =>
      by_cases ht : st.txOpen = true
      · simpa [stepCmd, ht] using ⟨hopen, htx, hpw, hbound⟩
      · have ht' : st.txOpen = false := by simpa using ht
        have hcl := htx ht'
        rw [hcl] at hopen
        have hids : st.openIds = [] := hopen
        refine ⟨?_, ?_, ?_, ?_⟩
        · simp [stepCmd, ht', ProxySession.Mail, buildProxyMessage, hids]
        · intro hf
          simp [stepCmd, ht'] at hf
        · simpa [stepCmd, ht'] using hpw
        · simpa [stepCmd, ht'] using hbound
  | rcptCmd toA =>
      by_cases ht : st.txOpen = true
      case neg =>
        have ht' : st.txOpen = false := by simpa using ht
        simpa [stepCmd, ht'] using ⟨hopen, htx, hpw, hbound⟩
      case pos =>
        rcases hcl : st.sess.msg.client with - | conn
        · rw [hcl] at hopen
          have hids : st.openIds = [] := hopen
          rcases rcpt_client_of_none net delim ms st.nextId st.sess toA hcl
            with hnone | ⟨b, hsome⟩
          · refine ⟨?_, ?_, ?_, ?_⟩
            · simp [stepCmd, ht, hcl, hnone, hids]
            · intro hf
              rw [show (stepCmd net delim ms st (ClientCmd.rcptCmd toA)).txOpen
                    = st.txOpen by simp [stepCmd, ht]] at hf
              exact absurd (ht.symm.trans hf) (by simp)
            · simpa [stepCmd, ht, hcl, hnone] using hpw
            · simpa [stepCmd, ht, hcl, hnone] using hbound
          · refine ⟨?_, ?_, ?_, ?_⟩
            · simp [stepCmd, ht, hcl, hsome, hids]
            · intro hf
              rw [show (stepCmd net delim ms st (ClientCmd.rcptCmd toA)).txOpen
                    = st.txOpen by simp [stepCmd, ht]] at hf
              exact absurd (ht.symm.trans hf) (by simp)
            · have : (st.openedHistory ++ [st.nextId]).Pairwise (· < ·) := by
                rw [List.pairwise_append]
                exact ⟨hpw, List.pairwise_singleton _ _,
                  fun a ha bq hbq => by
                    simp at hbq
                    subst hbq
                    exact hbound a ha⟩
              simpa [stepCmd, ht, hcl, hsome] using this
            · have : ∀ i ∈ st.openedHistory ++ [st.nextId], i < st.nextId + 1 := by
                intro i hi
                rcases List.mem_append.1 hi with hi | hi
                · exact Nat.lt_succ_of_lt (hbound i hi)
                · simp at hi
                  subst hi
                  exact Nat.lt_succ_self _
              simpa [stepCmd, ht, hcl, hsome] using this
        · rw [hcl] at hopen
          obtain ⟨hids, hlt⟩ := hopen
          have hb := rcpt_bound net delim ms st.nextId st.sess toA conn hcl
          have hafter :
              (ProxySession.Rcpt net delim ms st.nextId st.sess toA).1.msg.client
                = some conn := by
            rw [hb]
            simpa using hcl
          refine ⟨?_, ?_, ?_, ?_⟩
          · simp [stepCmd, ht, hcl, hafter, hids, hlt]
          · intro hf
            rw [show (stepCmd net delim ms st (ClientCmd.rcptCmd toA)).txOpen
                  = st.txOpen by simp [stepCmd, ht]] at hf
            exact absurd (ht.symm.trans hf) (by simp)
          · simpa [stepCmd, ht, hcl, hafter] using hpw
          · simpa [stepCmd, ht, hcl, hafter] using hbound
  | dataCmd =>
      by_cases ht : st.txOpen = true
      · have : stepCmd net delim ms st ClientCmd.dataCmd = doReset st := by
          simp [stepCmd, ht]
        rw [this]
        exact doReset_inv st ⟨hopen, htx, hpw, hbound⟩
      · have ht' : st.txOpen = false := by simpa using ht
        simpa [stepCmd, ht'] using ⟨hopen, htx, hpw, hbound⟩
  | rsetCmd =>
      have : stepCmd net delim ms st ClientCmd.rsetCmd = doReset st := by
        simp [stepCmd]
      rw [this]
      exact doReset_inv st ⟨hopen, htx, hpw, hbound⟩

/-- runSession preserves the session invariant. -/
lemma runSession_inv (net : Network) (delim : Str) (ms : List Mapping)
    (cmds : List ClientCmd) (st : SessionRun) (h : SessionInv st) :
    SessionInv (runSession net delim ms st cmds) := by
  induction cmds generalizing st with
  | nil => exact h
  | cons c cs ih => exact ih _ (stepCmd_inv net delim ms st c h)

/-- The freshly accepted session satisfies the invariant. -/
lemma initSessionRun_inv (clientHelo clientAddrStr : Str) (clientIsIPv6 clientTls : Bool)
    (helo : Str) :
    SessionInv (initSessionRun clientHelo clientAddrStr clientIsIPv6 clientTls helo) := by
  refine ⟨?_, ?_, ?_, ?_⟩ <;>
    simp [initSessionRun, buildZeroProxyMessage, buildProxyMessage]

/-- C4: every error a session callback (MAIL, RCPT, DATA, Logout) returns
to the client goes through LoggingSession's wrapAsSMTPError: an SMTP error
is passed through unchanged (same code, enhanced code and message), and
any non-SMTP error is replaced by exactly the generic transient reply
450 Internal server error. Please try again later. -/
theorem C4_error_translation (e : GoErr) :
    (isSMTPError e = true → wrapAsSMTPError (some e) = some e) ∧
    (isSMTPError e = false → wrapAsSMTPError (some e) = some ErrInternal) ∧
    wrapAsSMTPError none = none ∧
    ErrInternal
      = GoErr.smtpErr 450 none ("Internal server error. Please try again later.".toList) ∧
    (∀ net delim ms n s toA, (LoggingSession.Rcpt net delim ms n s toA).2.1
        = wrapAsSMTPError (ProxySession.Rcpt net delim ms n s toA).2.1) ∧
    (∀ s, LoggingSession.Data s = wrapAsSMTPError (ProxySession.Data s)) ∧
    (∀ s, LoggingSession.Logout s = wrapAsSMTPError (ProxySession.Logout s)) ∧
    (∀ s sender opts, (LoggingSession.Mail s sender opts).2 = wrapAsSMTPError none) := by
  refine ⟨?_, ?_, rfl, rfl, fun _ _ _ _ _ _ => rfl, fun _ => rfl, fun _ => rfl,
    fun _ _ _ => rfl⟩
  · intro h
    cases e <;> simp [wrapAsSMTPError] <;> simp [isSMTPError] at h
  · intro h
    cases e <;> simp [wrapAsSMTPError] <;> simp [isSMTPError] at h

/-- Witness for C4 at two concrete errors: a transport-style error is
replaced by ErrInternal, an upstream SMTP error passes unchanged. -/
theorem C4_error_translation_witness :
    wrapAsSMTPError (some (GoErr.other ("dial tcp: refused".toList))) = some ErrInternal ∧
    wrapAsSMTPError (some (GoErr.smtpErr 550 (some (5, 1, 1)) ("User unknown".toList)))
      = some (GoErr.smtpErr 550 (some (5, 1, 1)) ("User unknown".toList)) :=
  ⟨(C4_error_translation (GoErr.other ("dial tcp: refused".toList))).2.1 rfl,
   (C4_error_translation (GoErr.smtpErr 550 (some (5, 1, 1)) ("User unknown".toList))).1 rfl⟩

/-- C9: every successful resolution returns a server string containing a
colon; when the server field produced by the mapping lookup has no port, a
":25" suffix is appended, and otherwise it is returned exactly as the
mapping produced it. -/
theorem C9_port_normalization :
    (∀ (delim : Str) (ms : List Mapping) (r v : Str),
      getServer delim ms r = (v, none) → v.contains ':' = true) ∧
    (∀ (delim : Str) (m : Mapping) (r v : Str),
      m (firstKey delim r) = (v, none) →
      lookupRecipient delim m r =
        ((if v.contains ':' then v else v ++ (':' :: "25".toList)), none)) :=
  ⟨fun delim ms r v h => getServer_ok_contains delim ms r v h,
   fun delim m r v h => lookupRecipient_of_found delim m r v h⟩

/-- Witness for C9: a static mapping without a port is normalized to
port 25 and the result contains a colon. -/
theorem C9_port_normalization_witness :
    ("mx.example:25".toList).contains ':' = true ∧
    lookupRecipient [] (staticGet ("mx.example".toList)) ("u@x".toList)
      = ("mx.example:25".toList, none) := by
  refine ⟨C9_port_normalization.1 [] [staticGet ("mx.example".toList)] ("u@x".toList)
    ("mx.example:25".toList) (by decide), ?_⟩
  have h2 := C9_port_normalization.2 [] (staticGet ("mx.example".toList)) ("u@x".toList)
    ("mx.example".toList) rfl
  rw [h2]
  decide

/-- C3: on the first RCPT of a transaction, if every mapping in the chain
reports not-found on every tried key form the client receives the
permanent reject 554 5.7.1 Relay access denied; if a mapping returns an
operational (non not-found) error on the stripped recipient, that error is
surfaced immediately as the transient 450 reply, and the mappings after it
in the chain are not consulted: the chain result is the same for every
tail. -/
theorem C3_resolution_errors :
    (∀ (net : Network) (delim : Str) (ms : List Mapping) (n : Nat) (s : ProxySession)
        (toA : Str),
      s.msg.client = none →
      (∀ m ∈ ms, ∀ k ∈ triedKeys delim toA, (m k).2 = some GoErr.noServerFound) →
      (LoggingSession.Rcpt net delim ms n s toA).2.1 = some ErrRelayAccessDenied ∧
      ErrRelayAccessDenied
        = GoErr.smtpErr 554 (some (5, 7, 1)) ("Relay access denied".toList)) ∧
    (∀ (net : Network) (delim : Str) (pre tail : List Mapping) (m : Mapping) (n : Nat)
        (s : ProxySession) (toA sv : Str) (e0 : GoErr),
      s.msg.client = none →
      (∀ mp ∈ pre, ∀ k ∈ triedKeys delim toA, (mp k).2 = some GoErr.noServerFound) →
      m (firstKey delim toA) = (sv, some e0) →
      e0 ≠ GoErr.noServerFound →
      getServer delim (pre ++ m :: tail) toA = ([], some (GoErr.wrapped e0)) ∧
      (LoggingSession.Rcpt net delim (pre ++ m :: tail) n s toA).2.1 = some ErrInternal ∧
      ErrInternal
        = GoErr.smtpErr 450 none ("Internal server error. Please try again later.".toList)) := by
  constructor
  · intro net delim ms n s toA hcl hall
    have hres := getServer_all_notFound delim ms toA hall
    have hr := rcpt_notFound net delim ms n s toA [] hcl hres
    exact ⟨by simp [LoggingSession.Rcpt, hr, wrapAsSMTPError, ErrRelayAccessDenied], rfl⟩
  · intro net delim pre tail m n s toA sv e0 hcl hpre hm hne
    have hlr := lookupRecipient_of_opErr delim m toA sv e0 hm hne
    have hskip := getServer_skips_notFound delim pre (m :: tail) toA
      (fun mp hmp => lookupRecipient_notFound delim mp toA (hpre mp hmp))
    have hstop := getServer_stops delim m tail toA (by rw [hlr]; simp)
    have hres : getServer delim (pre ++ m :: tail) toA = ([], some (GoErr.wrapped e0)) := by
      rw [hskip, hstop, hlr]
    refine ⟨hres, ?_, rfl⟩
    have hr := rcpt_opErr net delim (pre ++ m :: tail) n s toA []
      (GoErr.wrapped e0) hcl hres (by simp)
    simp [LoggingSession.Rcpt, hr, wrapAsSMTPError]

/-- Witness for C3: an empty csv mapping chain yields the 554 reject; a
mapping with a dead backend yields the 450 reply and hides the static
catch-all after it. -/
theorem C3_resolution_errors_witness :
    (LoggingSession.Rcpt (fun _ => Except.ok okBehavior) [] [csvGet []] 0 (mkSession false)
        ("u@x".toList)).2.1 = some ErrRelayAccessDenied ∧
    getServer [] ([] ++ opErrMapping :: [staticGet ("mx:25".toList)]) ("u@x".toList)
      = ([], some (GoErr.wrapped (GoErr.other ("db down".toList)))) ∧
    (LoggingSession.Rcpt (fun _ => Except.ok okBehavior) []
        ([] ++ opErrMapping :: [staticGet ("mx:25".toList)]) 0 (mkSession false)
        ("u@x".toList)).2.1 = some ErrInternal := by
  refine ⟨(C3_resolution_errors.1 (fun _ => Except.ok okBehavior) [] [csvGet []] 0
      (mkSession false) ("u@x".toList) rfl ?_).1, ?_, ?_⟩
  · intro m hm k hk
    simp only [List.mem_singleton] at hm
    subst hm
    rfl
  · exact (C3_resolution_errors.2 (fun _ => Except.ok okBehavior) [] [] [staticGet ("mx:25".toList)]
      opErrMapping 0 (mkSession false) ("u@x".toList) [] (GoErr.other ("db down".toList))
      rfl (by simp) rfl (by decide)).1
  · exact (C3_resolution_errors.2 (fun _ => Except.ok okBehavior) [] [] [staticGet ("mx:25".toList)]
      opErrMapping 0 (mkSession false) ("u@x".toList) [] (GoErr.other ("db down".toList))
      rfl (by simp) rfl (by decide)).2.1

/-- C5: within one transaction the upstream is chosen exactly once, on the
first RCPT finding no upstream client bound (on success that RCPT binds
the resolved server and connection); every later RCPT of the transaction
is forwarded on the already-bound connection, with a result that does not
depend on the resolver chain, the delimiter, the network or the dial
counter, and the upstream's per-recipient verdict is what the client
receives (through the error translation layer). -/
theorem C5_upstream_chosen_once :
    (∀ (net : Network) (delim : Str) (ms : List Mapping) (n : Nat) (s : ProxySession)
        (toA : Str) (conn : UpstreamConn),
      s.msg.client = some conn →
      ProxySession.Rcpt net delim ms n s toA =
        ({ s with msg := { s.msg with rcpts := s.msg.rcpts ++ [toA] } },
         conn.behavior.rcptErr toA, [Step.rcptTo toA]) ∧
      (∀ (net2 : Network) (delim2 : Str) (ms2 : List Mapping) (n2 : Nat),
        ProxySession.Rcpt net2 delim2 ms2 n2 s toA = ProxySession.Rcpt net delim ms n s toA) ∧
      (LoggingSession.Rcpt net delim ms n s toA).2.1
        = wrapAsSMTPError (conn.behavior.rcptErr toA)) ∧
    (∀ (net : Network) (delim : Str) (ms : List Mapping) (n : Nat) (s : ProxySession)
        (toA srv : Str) (b : UpstreamBehavior),
      s.msg.client = none →
      getServer delim ms toA = (srv, none) →
      net srv = Except.ok b →
      b.ehloErr = none →
      (b.advXclient = true → b.xclientErr = none) →
      (codeStarttlsCondition b.advStarttls s.clientTls = true → b.starttlsErr = none) →
      b.mailErr = none →
      (ProxySession.Rcpt net delim ms n s toA).1.msg.client = some ⟨n, b⟩ ∧
      (ProxySession.Rcpt net delim ms n s toA).1.msg.server = srv) := by
  constructor
  · intro net delim ms n s toA conn hcl
    have hb := rcpt_bound net delim ms n s toA conn hcl
    refine ⟨hb, ?_, ?_⟩
    · intro net2 delim2 ms2 n2
      rw [hb, rcpt_bound net2 delim2 ms2 n2 s toA conn hcl]
    · simp [LoggingSession.Rcpt, hb]
  · intro net delim ms n s toA srv b hcl hres hnet hehlo hxc hst hmail
    have he := rcpt_establish net delim ms n s toA srv b hcl hres hnet hehlo hxc hst hmail
    rw [he]
    constructor <;> rfl

/-- Witness for C5: a bound session forwards a second RCPT unchanged under
two different resolver chains, and a fresh session binds the resolved
server. -/
theorem C5_upstream_chosen_once_witness :
    ProxySession.Rcpt (fun _ => Except.ok okBehavior) [] [] 5 sessBound ("r2@y".toList) =
      ({ sessBound with
          msg := { sessBound.msg with rcpts := sessBound.msg.rcpts ++ ["r2@y".toList] } },
       okBehavior.rcptErr ("r2@y".toList), [Step.rcptTo ("r2@y".toList)]) ∧
    (ProxySession.Rcpt (fun _ => Except.ok okBehavior) [] [staticGet ("mx:25".toList)] 0
        (mkSession false) ("u@x".toList)).1.msg.client = some ⟨0, okBehavior⟩ := by
  constructor
  · exact (C5_upstream_chosen_once.1 (fun _ => Except.ok okBehavior) [] [] 5 sessBound
      ("r2@y".toList) ⟨7, okBehavior⟩ rfl).1
  · exact (C5_upstream_chosen_once.2 (fun _ => Except.ok okBehavior) [] [staticGet ("mx:25".toList)]
      0 (mkSession false) ("u@x".toList) ("mx:25".toList) okBehavior rfl (by decide) rfl rfl
      (fun _ => rfl) (fun _ => rfl) rfl).1

/-- C8: for every client session and every well-ordered command sequence,
at most one upstream connection is open at any instant (after any command
list the list of open connections has length at most one), and the
identities of the connections opened over the session's life are strictly
increasing, so every new transaction runs on a freshly opened connection;
the invariant that the open set equals the bound connection means the
previous transaction's connection was closed (by the QUIT-then-close in
Reset) before the session holds another one. -/
theorem C8_single_upstream_per_session (net : Network) (delim : Str) (ms : List Mapping)
    (clientHelo clientAddrStr : Str) (clientIsIPv6 clientTls : Bool) (helo : Str)
    (cmds : List ClientCmd) :
    (runSession net delim ms (initSessionRun clientHelo clientAddrStr clientIsIPv6 clientTls helo)
        cmds).openIds.length ≤ 1 ∧
    (runSession net delim ms (initSessionRun clientHelo clientAddrStr clientIsIPv6 clientTls helo)
        cmds).openedHistory.Pairwise (· < ·) := by
  have h := runSession_inv net delim ms cmds _
    (initSessionRun_inv clientHelo clientAddrStr clientIsIPv6 clientTls helo)
  obtain ⟨hopen, -, hpw, -⟩ := h
  refine ⟨?_, hpw⟩
  rcases hcl : (runSession net delim ms
      (initSessionRun clientHelo clientAddrStr clientIsIPv6 clientTls helo)
      cmds).sess.msg.client with - | c
  · rw [hcl] at hopen
    have hids : _ = ([] : List Nat) := hopen
    simp [hids]
  · rw [hcl] at hopen
    obtain ⟨hids, -⟩ := hopen
    simp [hids]

/-- C6 counterexample: with an upstream advertising both XCLIENT and
STARTTLS and a TLS client session, the commands issued on the first RCPT
are dial, EHLO, XCLIENT, STARTTLS, MAIL FROM, RCPT TO — not the order
dial, EHLO, STARTTLS, XCLIENT, MAIL FROM, RCPT TO that the claim states:
XCLIENT is issued before STARTTLS, not after it. -/
theorem C6_order_counterexample :
    (ProxySession.Rcpt (fun _ => Except.ok bothAdvBehavior) [] [staticGet ("mx:25".toList)] 0
        (mkSession true) ("u@x".toList)).2.2 =
      [Step.dial ("mx:25".toList), Step.ehlo ("proxy.example".toList),
       Step.xclientCmd ("192.0.2.1".toList) ("client.example".toList),
       Step.starttls upstreamTlsConfig,
       Step.mailFrom [] 0, Step.rcptTo ("u@x".toList)] ∧
    [Step.dial ("mx:25".toList), Step.ehlo ("proxy.example".toList),
       Step.xclientCmd ("192.0.2.1".toList) ("client.example".toList),
       Step.starttls upstreamTlsConfig,
       Step.mailFrom [] 0, Step.rcptTo ("u@x".toList)] ≠
      [Step.dial ("mx:25".toList), Step.ehlo ("proxy.example".toList),
       Step.starttls upstreamTlsConfig,
       Step.xclientCmd ("192.0.2.1".toList) ("client.example".toList),
       Step.mailFrom [] 0, Step.rcptTo ("u@x".toList)] := by
  decide

/-- C6 amended: on the first RCPT of each transaction, the upstream
connection is established in this order: dial, then EHLO using the
proxy's configured greeting domain (the session's helo field, not the
client's HELO value), then the XCLIENT step (issued only when the
upstream advertises XCLIENT, expecting reply code 220), then the STARTTLS
step, then MAIL FROM with the saved mail options, and only then is the
RCPT forwarded. -/
theorem C6_amended_establishment_order (net : Network) (delim : Str) (ms : List Mapping)
    (n : Nat) (s : ProxySession) (toA srv : Str) (b : UpstreamBehavior)
    (hclient : s.msg.client = none)
    (hres : getServer delim ms toA = (srv, none))
    (hnet : net srv = Except.ok b)
    (hehlo : b.ehloErr = none)
    (hxc : b.advXclient = true → b.xclientErr = none)
    (hst : codeStarttlsCondition b.advStarttls s.clientTls = true → b.starttlsErr = none)
    (hmail : b.mailErr = none) :
    (ProxySession.Rcpt net delim ms n s toA).2.2 =
      [Step.dial srv, Step.ehlo s.helo] ++
        (if b.advXclient then [Step.xclientCmd (xclientAddr s) s.clientHelo] else []) ++
        (if codeStarttlsCondition b.advStarttls s.clientTls then
          [Step.starttls upstreamTlsConfig] else []) ++
        [Step.mailFrom s.msg.sender s.msg.opts, Step.rcptTo toA] := by
  rw [rcpt_establish net delim ms n s toA srv b hclient hres hnet hehlo hxc hst hmail]

/-- Witness for the amended C6 at a concrete scenario with both optional
steps present. -/
theorem C6_amended_establishment_order_witness :
    (ProxySession.Rcpt (fun _ => Except.ok bothAdvBehavior) [] [staticGet ("mx2:25".toList)] 0
        (mkSession true) ("a@b".toList)).2.2 =
      [Step.dial ("mx2:25".toList), Step.ehlo ("proxy.example".toList)] ++
        (if bothAdvBehavior.advXclient then
          [Step.xclientCmd (xclientAddr (mkSession true)) (mkSession true).clientHelo] else []) ++
        (if codeStarttlsCondition bothAdvBehavior.advStarttls (mkSession true).clientTls then
          [Step.starttls upstreamTlsConfig] else []) ++
        [Step.mailFrom (mkSession true).msg.sender (mkSession true).msg.opts,
         Step.rcptTo ("a@b".toList)] :=
  C6_amended_establishment_order (fun _ => Except.ok bothAdvBehavior) []
    [staticGet ("mx2:25".toList)] 0 (mkSession true) ("a@b".toList) ("mx2:25".toList)
    bothAdvBehavior rfl (by decide) rfl rfl (fun _ => rfl) (fun _ => rfl) rfl

/-- C1: the code issues STARTTLS when the upstream advertises it or the
client side is plaintext (codeStarttlsCondition), not only when it is
advertised and the client side is TLS (specStarttlsDecision).  At the
failing input — plaintext client, upstream not advertising STARTTLS — the
claim says STARTTLS is skipped, but the code issues it (the trace ends
with the STARTTLS step) and the transaction fails with the upstream's
rejection instead of proceeding in plaintext. -/
theorem C1_starttls_attempted_on_plaintext :
    codeStarttlsCondition false false = true ∧
    specStarttlsDecision false false = false ∧
    (ProxySession.Rcpt (fun _ => Except.ok noTlsUpstream) [] [staticGet ("mx:25".toList)] 0
        (mkSession false) ("u@x".toList)).2.1
      = some (GoErr.other ("STARTTLS not supported".toList)) ∧
    (ProxySession.Rcpt (fun _ => Except.ok noTlsUpstream) [] [staticGet ("mx:25".toList)] 0
        (mkSession false) ("u@x".toList)).2.2
      = [Step.dial ("mx:25".toList), Step.ehlo ("proxy.example".toList),
         Step.starttls upstreamTlsConfig] := by
  decide

/-- C2: with recipient_delimiter "+" configured and a chain whose only
mapping holds exactly the full recipient foo+tag@domain.com as key, the
claim says the full recipient is tried first and found; the code strips
the tag before the first lookup, never tries the full key, and resolution
fails with not-found, so the client receives Relay access denied. -/
theorem C2_full_recipient_never_tried :
    fullKeyMapping ("foo+tag@domain.com".toList) = ("mx1.int:25".toList, none) ∧
    getServer ("+".toList) [fullKeyMapping] ("foo+tag@domain.com".toList)
      = ([], some GoErr.noServerFound) ∧
    (LoggingSession.Rcpt (fun _ => Except.ok okBehavior) ("+".toList) [fullKeyMapping] 0
        (mkSession false) ("foo+tag@domain.com".toList)).2.1
      = some ErrRelayAccessDenied := by
  decide

/-- C7: the TLS configuration used for every upstream STARTTLS handshake
is the constant zero config with certificate verification enabled; it is
not the configuration the claim prescribes for an Upstream whose
tls_verify flag is false, so the flag does not determine the handshake
configuration. -/
theorem C7_tls_verify_ignored :
    upstreamTlsConfig.insecureSkipVerify = false ∧
    specTlsConfigOfUpstream ⟨"mail.external.org:5025".toList, false⟩ ≠ upstreamTlsConfig ∧
    ((ProxySession.Rcpt (fun _ => Except.ok tlsUpstream) []
        [staticGet ("mail.external.org:5025".toList)] 0 (mkSession true)
        ("u@x".toList)).2.2).contains (Step.starttls upstreamTlsConfig) = true := by
  decide
